import Mathlib

/-!
Shallow embedding of the medconnect order/payment/review/consultation core
(MongoDB service layer under FrontEnd/lib/mongodb and the consultation
booking route), with theorems settling the frozen specification claims.

Conventions of the embedding:
* timestamps are abstract naturals (`Time`); the wall clock is passed to
  each operation as an explicit `now` argument;
* money is `Int`;
* a thrown JS `Error` is modelled as `some err` in the first component of
  the result, paired with the store as it stood when the throw happened
  (every service throws before its first write, which the definitions
  mirror line by line);
* Mongo documents are records; `save` pipelines are modelled by applying
  the schema pre-save normalizer and then the post-save side effects, while
  `findByIdAndUpdate` writes (which bypass save middleware in mongoose)
  set fields directly;
* fields of the source schemas that no claim reads or branches on
  (identifiers of external providers, card data, meeting links, metadata,
  free-text bodies) are omitted; each record notes the omission.
-/

namespace Med

abbrev Time := Nat

/-- JS truthiness of an optional number: absent and 0 are falsy. -/
def truthyNum : Option Int → Bool
  | none => false
  | some v => v ≠ 0

/-- Notification record: the claims only observe the recipient and title
(models/Notification fields other than userId and title are omitted). -/
structure Notif where
  userId : Nat
  title : String
  deriving Repr, DecidableEq

/-! ## Order (FrontEnd/lib/mongodb/models/Order.ts) -/

inductive OrderStatus
  | PENDING_REVIEW | ASSIGNED | IN_PROGRESS | UNDER_REVIEW
  | COMPLETED | CANCELLED | REFUNDED
  deriving Repr, DecidableEq

/-- Order document. Omitted source fields not read by any claim:
orderNumber, productType, title, description, priority, dueDate,
createdAt/updatedAt. -/
structure Order where
  customerId : Nat
  reviewerId : Option Nat
  status : OrderStatus
  totalAmount : Int
  paidAmount : Int
  assignedAt : Option Time
  completedAt : Option Time
  deriving Repr, DecidableEq

/-- OrderSchema.pre save (Order.ts 201-220): set assignedAt when a reviewer
is present and assignedAt is unset; set completedAt when status is
COMPLETED and completedAt is unset. The orderNumber generator acts only on
the omitted orderNumber field. -/
def orderPreSave (now : Time) (o : Order) : Order :=
  let o := if o.reviewerId.isSome ∧ o.assignedAt = none then
    { o with assignedAt := some now } else o
  if o.status = OrderStatus.COMPLETED ∧ o.completedAt = none then
    { o with completedAt := some now } else o

/-! ## Payment (src/unnamed/part_004, PaymentSchema) -/

inductive PaymentStatus
  | PENDING | PROCESSING | COMPLETED | FAILED | REFUNDED | CANCELLED
  deriving Repr, DecidableEq

/-- Payment document. Omitted source fields not read by any claim:
currency, paymentMethod, paymentProvider, transactionId, stripePaymentId,
paypalPaymentId, bankReference, cardLast4, cardBrand, refundId, metadata,
createdAt/updatedAt. -/
structure Payment where
  amount : Int
  fee : Int
  netAmount : Option Int
  status : PaymentStatus
  processedAt : Option Time
  refundedAt : Option Time
  refundAmount : Option Int
  refundReason : Option String
  failureReason : Option String
  deriving Repr, DecidableEq

/-- PaymentSchema.pre save (part_004 229-253): compute netAmount from the
fee when no truthy netAmount is recorded yet, default it to amount
otherwise when unset; stamp processedAt on COMPLETED and refundedAt on
REFUNDED when unset. The transactionId generator acts only on the omitted
transactionId field. -/
def paymentPreSave (now : Time) (p : Payment) : Payment :=
  let p := if p.fee ≠ 0 ∧ ¬ truthyNum p.netAmount then
      { p with netAmount := some (p.amount - p.fee) }
    else if ¬ truthyNum p.netAmount then
      { p with netAmount := some p.amount }
    else p
  let p := if p.status = PaymentStatus.COMPLETED ∧ p.processedAt = none then
    { p with processedAt := some now } else p
  if p.status = PaymentStatus.REFUNDED ∧ p.refundedAt = none then
    { p with refundedAt := some now } else p

/-- Shared store for the payment ledger and the order controller: the one
parent order (all claims quantify per order), its payments addressed by
list index (standing in for Mongo object ids), and the notification
records emitted so far. -/
structure St where
  order : Order
  payments : List Payment
  notifs : List Notif
  deriving Repr, DecidableEq

/-- PaymentSchema.post save (part_004 256-293): a COMPLETED save atomically
increments the parent order paidAmount by the payment amount (a
findByIdAndUpdate $inc, which does not run the order pre-save hook) and
notifies the customer; a FAILED save notifies the customer. -/
def paymentPostSave (doc : Payment) (st : St) : St :=
  let st := if doc.status = PaymentStatus.COMPLETED then
      { st with
        order := { st.order with paidAmount := st.order.paidAmount + doc.amount }
        notifs := st.notifs ++ [⟨st.order.customerId, "Payment Received"⟩] }
    else st
  if doc.status = PaymentStatus.FAILED then
    { st with notifs := st.notifs ++ [⟨st.order.customerId, "Payment Failed"⟩] }
  else st

/-- payment.save(): pre-save normalization, write-back at index pid, then
the post-save side effects. -/
def savePayment (now : Time) (pid : Nat) (p : Payment) (st : St) : St :=
  let p := paymentPreSave now p
  paymentPostSave p { st with payments := st.payments.set pid p }

/-- Error kinds thrown by the embedded services, one constructor per throw
site message. -/
inductive SErr
  | paymentNotFound          -- "Payment not found"
  | amountNotPositive        -- "Payment amount must be greater than 0"
  | alreadyCompleted         -- "Payment is already completed"
  | alreadyFailed            -- "Payment is already marked as failed"
  | onlyCompletedRefundable  -- "Only completed payments can be refunded"
  | alreadyRefunded          -- "Payment is already refunded" (dead guard)
  | refundExceedsOriginal    -- "Refund amount cannot exceed original payment amount"
  | canOnlyCancelPending     -- "Can only cancel pending payments"
  | onlyFailedRetried        -- "Only failed payments can be retried"
  | cannotCancelCompleted    -- "Cannot cancel a completed order"
  | invalidReviewer          -- "Invalid or inactive reviewer"
  | cannotBeAssigned         -- "Order cannot be assigned at this time"
  deriving Repr, DecidableEq

/-- PaymentService.createPayment (part_000 378-405): reject non-positive
amounts, else persist a fresh PENDING payment (schema defaults: fee 0,
netAmount unset until pre-save). The new payment gets the next index as
its id. -/
def createPayment (now : Time) (amount : Int) (st : St) : Option SErr × St :=
  if amount ≤ 0 then (some SErr.amountNotPositive, st)
  else
    let p : Payment :=
      { amount := amount, fee := 0, netAmount := none
        status := PaymentStatus.PENDING, processedAt := none
        refundedAt := none, refundAmount := none, refundReason := none
        failureReason := none }
    let p := paymentPreSave now p
    (none, paymentPostSave p { st with payments := st.payments ++ [p] })

/-- PaymentService.completePayment (part_000 428-456): reject when already
COMPLETED; else merge the caller data (the claims read only the fee),
apply the complete() method (status COMPLETED, processedAt now), and
save. -/
def completePayment (now : Time) (pid : Nat) (fee? : Option Int) (st : St) :
    Option SErr × St :=
  match st.payments[pid]? with
  | none => (some SErr.paymentNotFound, st)
  | some p =>
    if p.status = PaymentStatus.COMPLETED then (some SErr.alreadyCompleted, st)
    else
      let p := { p with fee := fee?.getD p.fee }
      let p := { p with status := PaymentStatus.COMPLETED, processedAt := some now }
      (none, savePayment now pid p st)

/-- PaymentService.failPayment (part_000 458-473). -/
def failPayment (now : Time) (pid : Nat) (reason? : Option String) (st : St) :
    Option SErr × St :=
  match st.payments[pid]? with
  | none => (some SErr.paymentNotFound, st)
  | some p =>
    if p.status = PaymentStatus.FAILED then (some SErr.alreadyFailed, st)
    else
      let p := { p with status := PaymentStatus.FAILED
                        failureReason := if reason?.isSome then reason? else p.failureReason }
      (none, savePayment now pid p st)

/-- PaymentService.refundPayment (part_000 475-523): only COMPLETED
payments are refundable (the REFUNDED re-check below it is dead code,
kept verbatim); the requested amount defaults to the full amount under JS
truthiness; an amount above the original is rejected before any write; on
success the refund() method runs and the parent order paidAmount is
lowered by the refund, floored at 0, through a full order.save(), then the
customer is notified. -/
def refundPayment (now : Time) (pid : Nat) (amount? : Option Int)
    (reason? : Option String) (st : St) : Option SErr × St :=
  match st.payments[pid]? with
  | none => (some SErr.paymentNotFound, st)
  | some p =>
    if p.status ≠ PaymentStatus.COMPLETED then (some SErr.onlyCompletedRefundable, st)
    else if p.status = PaymentStatus.REFUNDED then (some SErr.alreadyRefunded, st)
    else
      let r := match amount? with
        | some a => if a ≠ 0 then a else p.amount
        | none => p.amount
      if r > p.amount then (some SErr.refundExceedsOriginal, st)
      else
        let p := { p with status := PaymentStatus.REFUNDED, refundAmount := some r
                          refundReason := reason?, refundedAt := some now }
        let st := savePayment now pid p st
        let o := { st.order with paidAmount := max 0 (st.order.paidAmount - r) }
        let st := { st with order := orderPreSave now o }
        (none, { st with notifs := st.notifs ++ [⟨st.order.customerId, "Payment Refunded"⟩] })

/-- PaymentService.cancelPayment (part_000 525-536) delegating to
PaymentSchema.methods.cancel (part_004 384-390): only a PENDING payment
may be cancelled; anything else throws before any write. -/
def cancelPayment (now : Time) (pid : Nat) (st : St) : Option SErr × St :=
  match st.payments[pid]? with
  | none => (some SErr.paymentNotFound, st)
  | some p =>
    if p.status = PaymentStatus.PENDING then
      (none, savePayment now pid { p with status := PaymentStatus.CANCELLED } st)
    else (some SErr.canOnlyCancelPending, st)

/-- PaymentService.retryFailedPayment (part_000 712-729). -/
def retryFailedPayment (now : Time) (pid : Nat) (st : St) : Option SErr × St :=
  match st.payments[pid]? with
  | none => (some SErr.paymentNotFound, st)
  | some p =>
    if p.status ≠ PaymentStatus.FAILED then (some SErr.onlyFailedRetried, st)
    else
      (none, savePayment now pid { p with status := PaymentStatus.PENDING
                                          failureReason := none } st)

/-! ## Order controller operations (src/unnamed/part_001, OrderService) -/

inductive UserRole
  | CUSTOMER | REVIEWER | ADMIN
  deriving Repr, DecidableEq

/-- User document; only the fields the assignment path reads. -/
structure User where
  role : UserRole
  isActive : Bool
  deriving Repr, DecidableEq

/-- OrderService.assignReviewer (part_001 127-170): reviewer existence,
activity and role are checked first (one combined throw site), then
canBeAssigned (Order.ts 247-249: status = PENDING_REVIEW), then the three
assignment fields are written and the order saved; two notifications
follow. `reviewer?` is the result of the User.findById lookup. -/
def assignReviewer (now : Time) (reviewer? : Option User) (rid : Nat) (st : St) :
    Option SErr × St :=
  let ok : Bool := match reviewer? with
    | none => false
    | some u => u.isActive && u.role == UserRole.REVIEWER
  if ¬ ok then (some SErr.invalidReviewer, st)
  else if ¬ (st.order.status = OrderStatus.PENDING_REVIEW) then
    (some SErr.cannotBeAssigned, st)
  else
    let o := { st.order with reviewerId := some rid
                             status := OrderStatus.ASSIGNED
                             assignedAt := some now }
    let st := { st with order := orderPreSave now o }
    (none, { st with notifs := st.notifs ++
      [⟨st.order.customerId, "Order Assigned"⟩, ⟨rid, "New Order Assignment"⟩] })

/-- OrderService.updateOrderStatus (part_001 172-202): unconditional status
write; when the new status is COMPLETED the service assigns completedAt :=
now before saving (no unset guard at the service layer), then the order is
saved and the customer notified only if the status actually changed. -/
def updateOrderStatus (now : Time) (newStatus : OrderStatus) (st : St) :
    Option SErr × St :=
  let oldStatus := st.order.status
  let o := { st.order with status := newStatus }
  let o := if newStatus = OrderStatus.COMPLETED then
    { o with completedAt := some now } else o
  let st := { st with order := orderPreSave now o }
  if oldStatus ≠ newStatus then
    (none, { st with notifs := st.notifs ++ [⟨st.order.customerId, "Order Status Updated"⟩] })
  else (none, st)

/-- OrderService.cancelOrder (part_001 329-354). -/
def cancelOrder (now : Time) (st : St) : Option SErr × St :=
  if st.order.status = OrderStatus.COMPLETED then (some SErr.cannotCancelCompleted, st)
  else
    let st := { st with order := orderPreSave now { st.order with status := OrderStatus.CANCELLED } }
    (none, { st with notifs := st.notifs ++ [⟨st.order.customerId, "Order Cancelled"⟩] })

/-! ## Trace model for the paidAmount accounting claim

An `Op` is one sequential controller invocation; `applyOp` runs it and
keeps the resulting store (a thrown error leaves the store as the service
left it, which for every operation above is unchanged up to the throw). -/

inductive Op
  | createPay (amount : Int)
  | completePay (pid : Nat) (fee? : Option Int)
  | failPay (pid : Nat) (reason? : Option String)
  | refundPay (pid : Nat) (amount? : Option Int) (reason? : Option String)
  | cancelPay (pid : Nat)
  | retryPay (pid : Nat)
  | setStatus (newStatus : OrderStatus)
  | cancelOrd
  | assign (reviewer? : Option User) (rid : Nat)
  deriving Repr

def applyOp (st : St) : Time × Op → St
  | (now, Op.createPay a) => (createPayment now a st).2
  | (now, Op.completePay pid f) => (completePayment now pid f st).2
  | (now, Op.failPay pid r) => (failPayment now pid r st).2
  | (now, Op.refundPay pid a r) => (refundPayment now pid a r st).2
  | (now, Op.cancelPay pid) => (cancelPayment now pid st).2
  | (now, Op.retryPay pid) => (retryFailedPayment now pid st).2
  | (now, Op.setStatus s) => (updateOrderStatus now s st).2
  | (now, Op.cancelOrd) => (cancelOrder now st).2
  | (now, Op.assign u rid) => (assignReviewer now u rid st).2

/-- Replay a trace of timed operations from a starting store. -/
def replay (st : St) (tr : List (Time × Op)) : St :=
  tr.foldl applyOp st

/-- Initial store for a freshly created order: status PENDING_REVIEW,
paidAmount 0, no reviewer, no payments (OrderService.createOrder plus the
Order schema defaults). -/
def initSt (customerId : Nat) (total : Int) : St :=
  { order := { customerId := customerId, reviewerId := none
               status := OrderStatus.PENDING_REVIEW
               totalAmount := total, paidAmount := 0
               assignedAt := none, completedAt := none }
    payments := [], notifs := [] }

/-- The exact ledger delta of one operation: +amount for a completion the
guards admit, -refund for a refund the guards admit (the same guard
conditions the services test), 0 for everything else. Note no flooring. -/
def opDelta (st : St) : Op → Int
  | Op.completePay pid _ =>
    match st.payments[pid]? with
    | some p => if p.status = PaymentStatus.COMPLETED then 0 else p.amount
    | none => 0
  | Op.refundPay pid a? _ =>
    match st.payments[pid]? with
    | some p =>
      if p.status = PaymentStatus.COMPLETED then
        let r := match a? with
          | some a => if a ≠ 0 then a else p.amount
          | none => p.amount
        if r > p.amount then 0 else -r
      else 0
    | none => 0
  | _ => 0

/-- Sum of the ledger deltas along a trace: the completed-minus-refunded
payment accounting of the claim. -/
def ledgerSum (st : St) : List (Time × Op) → Int
  | [] => 0
  | top :: tr => opDelta st top.2 + ledgerSum (applyOp st top) tr

/-- Sum of the amounts of the currently COMPLETED payments. -/
def completedSum (l : List Payment) : Int :=
  l.foldr (fun p acc => (if p.status = PaymentStatus.COMPLETED then p.amount else 0) + acc) 0

/-- Inductive invariant of the sequential ledger: every stored payment has
a positive amount (the schema validator), and paidAmount dominates the
amounts of the currently COMPLETED payments. -/
def LedgerInv (st : St) : Prop :=
  (∀ p ∈ st.payments, 0 < p.amount) ∧ completedSum st.payments ≤ st.order.paidAmount

/-! ## Review workflow (FrontEnd/lib/mongodb/services/ReviewService.ts and
models/Review.ts) -/

/-- Review document; omitted source fields not read by any claim: title,
content, recommendations, severity, reviewTime, attachments, tags,
ratings (the pre-save hook normalizes only those omitted fields, so it is
the identity here). -/
structure Review where
  isComplete : Bool
  deriving Repr, DecidableEq

/-- Store for the review workflow: one review and its parent order. -/
structure RSt where
  review : Review
  order : Order
  deriving Repr, DecidableEq

/-- ReviewSchema.post save (Review.ts 207-217): every save of a review
whose isComplete is true pushes status COMPLETED and completedAt := now
onto the parent order by findByIdAndUpdate (no unset guard, and update
queries bypass the order pre-save hook). -/
def reviewPostSave (now : Time) (rst : RSt) : RSt :=
  if rst.review.isComplete then
    { rst with order := { rst.order with status := OrderStatus.COMPLETED
                                         completedAt := some now } }
  else rst

/-- review.save(): pre-save normalization (identity on the retained
fields) followed by the post-save hook. -/
def saveReview (now : Time) (rst : RSt) : RSt :=
  reviewPostSave now rst

inductive RErr
  | alreadyComplete   -- "Review is already completed"
  deriving Repr, DecidableEq

/-- ReviewService.completeReview (ReviewService.ts 121-152): reject when
isComplete already, else flip isComplete and save (the extras merged by
Object.assign touch only omitted fields); the order transition happens in
the post-save hook. -/
def completeReview (now : Time) (rst : RSt) : Option RErr × RSt :=
  if rst.review.isComplete then (some RErr.alreadyComplete, rst)
  else
    let rst := { rst with review := { rst.review with isComplete := true } }
    (none, saveReview now rst)

/-! ## Document registry (src/unnamed/part_000, DocumentService, and
models/Document.ts) -/

/-- Document record; omitted source fields not read by any claim:
fileName, originalName, fileSize, fileType, filePath, uploadedBy,
metadata. -/
structure Doc where
  isActive : Bool
  downloadCount : Nat
  deriving Repr, DecidableEq

inductive DocErr
  | notFoundOrInactive  -- "Document not found or inactive"
  | unauthorized        -- "Unauthorized to download this document"
  | fileMissing         -- "File not found on server"
  deriving Repr, DecidableEq

/-- DocumentService.downloadDocument (part_000 109-146): the document must
exist and be active; then the permission guard throws exactly when the
requester differs from the order customer AND the JS conjunct
`order.reviewerId && order.reviewerId.toString() !== userId` is truthy —
with a null reviewerId that conjunct is falsy, so no throw happens; then
the file must exist on disk; finally incrementDownloadCount (Document.ts
217-220) bumps the counter by one and saves. -/
def downloadDocument (userId : Nat) (doc? : Option Doc) (order : Order)
    (fileExists : Bool) : Option DocErr × Option Doc :=
  match doc? with
  | none => (some DocErr.notFoundOrInactive, doc?)
  | some doc =>
    if ¬ doc.isActive then (some DocErr.notFoundOrInactive, doc?)
    else if order.customerId != userId &&
        (match order.reviewerId with
         | some r => r != userId
         | none => false) then
      (some DocErr.unauthorized, doc?)
    else if ¬ fileExists then (some DocErr.fileMissing, doc?)
    else (none, some { doc with downloadCount := doc.downloadCount + 1 })

/-! ## Consultation scheduler (FrontEnd/lib/mongodb/services/
ConsultationService.ts and models/Consultation.ts) -/

inductive ConsultationStatus
  | SCHEDULED | IN_PROGRESS | COMPLETED | CANCELLED | RESCHEDULED
  deriving Repr, DecidableEq

structure Reminders where
  sent24h : Bool
  sent1h : Bool
  sent15min : Bool
  deriving Repr, DecidableEq

structure RescheduleEntry where
  previousDate : Time
  reason : String
  rescheduledBy : Nat
  rescheduledAt : Time
  deriving Repr, DecidableEq

/-- Consultation document; omitted source fields not read by any claim:
orderId, customerId, reviewerId, meetingLink, meetingId, roomId,
customerNotes, reviewerNotes, recordingUrl, transcriptUrl, attachments,
rating. -/
structure Consultation where
  scheduledDate : Time
  duration : Nat
  status : ConsultationStatus
  notes : Option String
  reminders : Reminders
  rescheduleHistory : List RescheduleEntry
  actualStartTime : Option Time
  actualEndTime : Option Time
  deriving Repr, DecidableEq

/-- ConsultationSchema.pre save (Consultation.ts 297-315) for an existing
document (the isNew past-date validation concerns creation only): stamp
actualStartTime on IN_PROGRESS and actualEndTime on COMPLETED when
unset. -/
def consultationPreSave (now : Time) (c : Consultation) : Consultation :=
  let c := if c.status = ConsultationStatus.IN_PROGRESS ∧ c.actualStartTime = none then
    { c with actualStartTime := some now } else c
  if c.status = ConsultationStatus.COMPLETED ∧ c.actualEndTime = none then
    { c with actualEndTime := some now } else c

inductive CErr
  | cannotBeStarted      -- "Consultation cannot be started"
  | notInProgress        -- "Consultation is not in progress"
  | cannotBeCancelled    -- "Consultation cannot be cancelled"
  | onlyScheduledResched -- "Only scheduled consultations can be rescheduled"
  | dateNotFuture        -- "New scheduled date must be in the future"
  deriving Repr, DecidableEq

/-- ConsultationService.startConsultation (ConsultationService.ts 159-172)
plus methods.start (Consultation.ts 398-402). -/
def startConsultation (now : Time) (c : Consultation) : Option CErr × Consultation :=
  if c.status ≠ ConsultationStatus.SCHEDULED then (some CErr.cannotBeStarted, c)
  else
    (none, consultationPreSave now
      { c with status := ConsultationStatus.IN_PROGRESS, actualStartTime := some now })

/-- ConsultationService.completeConsultation (174-199) plus
methods.complete (404-409); of the merged data only the notes survive in
the retained fields. -/
def completeConsultation (now : Time) (notes? : Option String) (c : Consultation) :
    Option CErr × Consultation :=
  if c.status ≠ ConsultationStatus.IN_PROGRESS then (some CErr.notInProgress, c)
  else
    let c := { c with notes := if notes?.isSome then notes? else c.notes }
    let c := { c with status := ConsultationStatus.COMPLETED, actualEndTime := some now }
    (none, consultationPreSave now c)

/-- ConsultationService.cancelConsultation (201-236) plus methods.cancel
(411-419): allowed from SCHEDULED and from IN_PROGRESS; the reason is
folded into the notes. -/
def cancelConsultation (now : Time) (reason? : Option String) (c : Consultation) :
    Option CErr × Consultation :=
  if ¬ (c.status = ConsultationStatus.SCHEDULED ∨
        c.status = ConsultationStatus.IN_PROGRESS) then
    (some CErr.cannotBeCancelled, c)
  else
    let c := { c with status := ConsultationStatus.CANCELLED }
    let c := { c with notes := match reason?, c.notes with
      | some r, some n => some (n ++ "\nCancellation reason: " ++ r)
      | some r, none => some ("Cancellation reason: " ++ r)
      | none, n => n }
    (none, consultationPreSave now c)

/-- ConsultationService.rescheduleConsultation (238-282) plus
methods.reschedule (421-442): only from SCHEDULED, only to a strictly
future date; logs the previous date into rescheduleHistory, moves
scheduledDate, keeps status SCHEDULED and resets the three reminder
flags. -/
def rescheduleConsultation (now : Time) (newDate : Time) (reason : String)
    (rescheduledBy : Nat) (c : Consultation) : Option CErr × Consultation :=
  if c.status ≠ ConsultationStatus.SCHEDULED then (some CErr.onlyScheduledResched, c)
  else if newDate ≤ now then (some CErr.dateNotFuture, c)
  else
    let c := { c with
      rescheduleHistory := c.rescheduleHistory ++
        [⟨c.scheduledDate, reason, rescheduledBy, now⟩]
      scheduledDate := newDate
      status := ConsultationStatus.SCHEDULED
      reminders := ⟨false, false, false⟩ }
    (none, consultationPreSave now c)

/-- One scheduler transition request, for the state machine claim. -/
inductive COp
  | start
  | complete (notes? : Option String)
  | cancel (reason? : Option String)
  | reschedule (newDate : Time) (reason : String) (rescheduledBy : Nat)
  deriving Repr

def applyCOp (now : Time) (c : Consultation) : COp → Option CErr × Consultation
  | COp.start => startConsultation now c
  | COp.complete n => completeConsultation now n c
  | COp.cancel r => cancelConsultation now r c
  | COp.reschedule d rs by_ => rescheduleConsultation now d rs by_ c

/-! ## Consultation booking route (src/unnamed/part_009, POST) -/

/-- The slice of an existing consultation row the booking route reads. -/
structure BookedSlot where
  reviewerId : Nat
  scheduledDate : Time
  duration : Nat
  status : ConsultationStatus
  deriving Repr, DecidableEq

/-- The availability test of the POST handler (part_009 228-239): a
prisma findFirst for a SCHEDULED or IN_PROGRESS consultation of the same
reviewer with scheduledDate EQUAL to the requested date. -/
def bookingConflict (existing : List BookedSlot) (rid : Nat) (reqDate : Time) : Bool :=
  existing.any fun c =>
    c.reviewerId == rid && c.scheduledDate == reqDate &&
    (c.status == ConsultationStatus.SCHEDULED ||
     c.status == ConsultationStatus.IN_PROGRESS)

inductive RouteErr
  | slotTaken409   -- "Time slot not available", HTTP 409
  deriving Repr, DecidableEq

/-- POST consultation booking (part_009 206-295), after the order
ownership check: reject with 409 when `bookingConflict` fires, else create
the SCHEDULED consultation row. -/
def postBooking (existing : List BookedSlot) (rid : Nat) (reqDate : Time)
    (duration : Nat) : Option RouteErr × List BookedSlot :=
  if bookingConflict existing rid reqDate then (some RouteErr.slotTaken409, existing)
  else
    (none, existing ++ [⟨rid, reqDate, duration, ConsultationStatus.SCHEDULED⟩])

/-- The interval overlap test as the repository itself states it in the
availability GET handler (part_009 85-91): slots [s1, s1+d1) and
[s2, s2+d2) overlap when s1 < s2+d2 and s2 < s1+d1. -/
def slotsOverlap (s1 : Time) (d1 : Nat) (s2 : Time) (d2 : Nat) : Bool :=
  s1 < s2 + d2 && s2 < s1 + d1

/-! ## Helper lemmas about the save pipelines -/

theorem orderPreSave_paidAmount (now : Time) (o : Order) :
    (orderPreSave now o).paidAmount = o.paidAmount := by
  unfold orderPreSave; dsimp only; split_ifs <;> rfl

theorem orderPreSave_status (now : Time) (o : Order) :
    (orderPreSave now o).status = o.status := by
  unfold orderPreSave; dsimp only; split_ifs <;> rfl

theorem orderPreSave_completedAt_of_set (now : Time) (o : Order) (t : Time)
    (h : o.completedAt = some t) : (orderPreSave now o).completedAt = some t := by
  unfold orderPreSave; dsimp only; split_ifs with h1 h2 h3 <;>
    first
      | exact h
      | (exfalso; revert h2; simp_all)
      | (exfalso; revert h3; simp_all)

theorem paymentPreSave_status (now : Time) (p : Payment) :
    (paymentPreSave now p).status = p.status := by
  unfold paymentPreSave; dsimp only; split_ifs <;> rfl

theorem paymentPreSave_amount (now : Time) (p : Payment) :
    (paymentPreSave now p).amount = p.amount := by
  unfold paymentPreSave; dsimp only; split_ifs <;> rfl

theorem paymentPreSave_refundAmount (now : Time) (p : Payment) :
    (paymentPreSave now p).refundAmount = p.refundAmount := by
  unfold paymentPreSave; dsimp only; split_ifs <;> rfl

theorem paymentPreSave_processedAt_of_set (now : Time) (p : Payment) (t : Time)
    (h : p.processedAt = some t) : (paymentPreSave now p).processedAt = some t := by
  unfold paymentPreSave; dsimp only; split_ifs <;> simp_all

theorem paymentPreSave_netAmount (now : Time) (p : Payment) :
    (paymentPreSave now p).netAmount =
      if truthyNum p.netAmount then p.netAmount
      else if p.fee ≠ 0 then some (p.amount - p.fee) else some p.amount := by
  unfold paymentPreSave; dsimp only; split_ifs <;> simp_all

theorem paymentPostSave_payments (doc : Payment) (st : St) :
    (paymentPostSave doc st).payments = st.payments := by
  unfold paymentPostSave; dsimp only; split_ifs <;> rfl

theorem paymentPostSave_order_of_completed (doc : Payment) (st : St)
    (h : doc.status = PaymentStatus.COMPLETED) :
    (paymentPostSave doc st).order =
      { st.order with paidAmount := st.order.paidAmount + doc.amount } := by
  unfold paymentPostSave; dsimp only; split_ifs <;> simp_all

theorem paymentPostSave_order_of_not_completed (doc : Payment) (st : St)
    (h : doc.status ≠ PaymentStatus.COMPLETED) :
    (paymentPostSave doc st).order = st.order := by
  unfold paymentPostSave; dsimp only; split_ifs <;> simp_all

theorem paymentPostSave_notifs_of_completed (doc : Payment) (st : St)
    (h : doc.status = PaymentStatus.COMPLETED) :
    (paymentPostSave doc st).notifs =
      st.notifs ++ [⟨st.order.customerId, "Payment Received"⟩] := by
  unfold paymentPostSave; dsimp only; split_ifs <;> simp_all

theorem savePayment_payments (now : Time) (pid : Nat) (p : Payment) (st : St) :
    (savePayment now pid p st).payments = st.payments.set pid (paymentPreSave now p) := by
  unfold savePayment; dsimp only; rw [paymentPostSave_payments]

theorem paymentPostSave_notifs (doc : Payment) (st : St) :
    (paymentPostSave doc st).notifs =
      if doc.status = PaymentStatus.COMPLETED then
        st.notifs ++ [⟨st.order.customerId, "Payment Received"⟩]
      else if doc.status = PaymentStatus.FAILED then
        st.notifs ++ [⟨st.order.customerId, "Payment Failed"⟩]
      else st.notifs := by
  unfold paymentPostSave; dsimp only; split_ifs <;> simp_all

theorem savePayment_order (now : Time) (pid : Nat) (p : Payment) (st : St) :
    (savePayment now pid p st).order =
      if p.status = PaymentStatus.COMPLETED then
        { st.order with paidAmount := st.order.paidAmount + p.amount }
      else st.order := by
  unfold savePayment; dsimp only
  by_cases hc : p.status = PaymentStatus.COMPLETED
  · rw [if_pos hc,
      paymentPostSave_order_of_completed _ _ (by rw [paymentPreSave_status]; exact hc),
      paymentPreSave_amount]
  · rw [if_neg hc,
      paymentPostSave_order_of_not_completed _ _ (by rw [paymentPreSave_status]; exact hc)]

theorem savePayment_notifs (now : Time) (pid : Nat) (p : Payment) (st : St) :
    (savePayment now pid p st).notifs =
      if p.status = PaymentStatus.COMPLETED then
        st.notifs ++ [⟨st.order.customerId, "Payment Received"⟩]
      else if p.status = PaymentStatus.FAILED then
        st.notifs ++ [⟨st.order.customerId, "Payment Failed"⟩]
      else st.notifs := by
  unfold savePayment; dsimp only
  rw [paymentPostSave_notifs, paymentPreSave_status]

/-! ## Helper lemmas about completedSum -/

theorem completedSum_nil : completedSum [] = 0 := rfl

theorem completedSum_cons (p : Payment) (l : List Payment) :
    completedSum (p :: l) =
      (if p.status = PaymentStatus.COMPLETED then p.amount else 0) + completedSum l := rfl

theorem completedSum_append_singleton (l : List Payment) (p : Payment) :
    completedSum (l ++ [p]) =
      completedSum l + (if p.status = PaymentStatus.COMPLETED then p.amount else 0) := by
  induction l with
  | nil => simp [completedSum_cons, completedSum_nil]
  | cons q t ih =>
    simp only [List.cons_append, completedSum_cons, ih]
    ring

theorem completedSum_nonneg (l : List Payment) (h : ∀ p ∈ l, 0 < p.amount) :
    0 ≤ completedSum l := by
  induction l with
  | nil => simp [completedSum_nil]
  | cons q t ih =>
    have hq := h q (by simp)
    have ht := ih (fun p hp => h p (by simp [hp]))
    rw [completedSum_cons]
    have : (0:Int) ≤ if q.status = PaymentStatus.COMPLETED then q.amount else 0 := by
      split_ifs <;> omega
    omega

theorem completedSum_set (l : List Payment) (i : Nat) (p q : Payment)
    (h : l[i]? = some p) :
    completedSum (l.set i q) = completedSum l
      - (if p.status = PaymentStatus.COMPLETED then p.amount else 0)
      + (if q.status = PaymentStatus.COMPLETED then q.amount else 0) := by
  induction l generalizing i with
  | nil => simp at h
  | cons a t ih =>
    cases i with
    | zero =>
      simp only [List.getElem?_cons_zero, Option.some_inj] at h
      subst h
      simp only [List.set_cons_zero, completedSum_cons]
      ring
    | succ n =>
      simp only [List.getElem?_cons_succ] at h
      simp only [List.set_cons_succ, completedSum_cons, ih n h]
      ring

theorem contrib_le_completedSum (l : List Payment) (i : Nat) (p : Payment)
    (h : l[i]? = some p) (hpos : ∀ q ∈ l, 0 < q.amount) :
    (if p.status = PaymentStatus.COMPLETED then p.amount else 0) ≤ completedSum l := by
  induction l generalizing i with
  | nil => simp at h
  | cons a t ih =>
    have ht : 0 ≤ completedSum t :=
      completedSum_nonneg t (fun q hq => hpos q (by simp [hq]))
    cases i with
    | zero =>
      simp only [List.getElem?_cons_zero, Option.some_inj] at h
      subst h
      rw [completedSum_cons]
      omega
    | succ n =>
      simp only [List.getElem?_cons_succ] at h
      have := ih n h (fun q hq => hpos q (by simp [hq]))
      have ha : (0:Int) ≤ if a.status = PaymentStatus.COMPLETED then a.amount else 0 := by
        have := hpos a (by simp)
        split_ifs <;> omega
      rw [completedSum_cons]
      omega

theorem lt_of_getElem?_eq_some {α : Type} {l : List α} {i : Nat} {a : α}
    (h : l[i]? = some a) : i < l.length := by
  by_contra hn
  rw [List.getElem?_eq_none (by omega)] at h
  exact Option.noConfusion h

/-! ## Claim theorems -/

/-- C10: PaymentService.cancelPayment cancels a PENDING payment (its status
becomes CANCELLED) and for a payment in any other status throws the error
with message Can only cancel pending payments, leaving the whole store
unchanged. -/
theorem cancelPayment_contract (now : Time) (st : St) (pid : Nat) (p : Payment)
    (h : st.payments[pid]? = some p) :
    (p.status = PaymentStatus.PENDING →
      (cancelPayment now pid st).1 = none ∧
      ((cancelPayment now pid st).2.payments[pid]?).map Payment.status
        = some PaymentStatus.CANCELLED) ∧
    (p.status ≠ PaymentStatus.PENDING →
      cancelPayment now pid st = (some SErr.canOnlyCancelPending, st)) := by
  have hlt : pid < st.payments.length := lt_of_getElem?_eq_some h
  constructor
  · intro hp
    simp only [cancelPayment, h]
    rw [if_pos hp]
    refine ⟨rfl, ?_⟩
    show ((savePayment now pid _ st).payments[pid]?).map Payment.status = _
    rw [savePayment_payments]
    rw [List.getElem?_set_eq_of_lt _ (by simpa using hlt)]
    simp [paymentPreSave_status]
  · intro hp
    simp only [cancelPayment, h]
    rw [if_neg hp]

/-- Witness for C10 at a concrete PENDING payment and a concrete COMPLETED
payment. -/
theorem cancelPayment_contract_witness :
    ((⟨⟨1, none, OrderStatus.PENDING_REVIEW, 350, 0, none, none⟩,
       [⟨100, 0, some 100, PaymentStatus.PENDING, none, none, none, none, none⟩],
       []⟩ : St).payments[0]? =
      some ⟨100, 0, some 100, PaymentStatus.PENDING, none, none, none, none, none⟩) ∧
    ((cancelPayment 7 0 ⟨⟨1, none, OrderStatus.PENDING_REVIEW, 350, 0, none, none⟩,
       [⟨100, 0, some 100, PaymentStatus.COMPLETED, none, none, none, none, none⟩],
       []⟩).1 = some SErr.canOnlyCancelPending) := by
  refine ⟨by decide, ?_⟩
  have := (cancelPayment_contract 7
    ⟨⟨1, none, OrderStatus.PENDING_REVIEW, 350, 0, none, none⟩,
     [⟨100, 0, some 100, PaymentStatus.COMPLETED, none, none, none, none, none⟩], []⟩
    0 ⟨100, 0, some 100, PaymentStatus.COMPLETED, none, none, none, none, none⟩
    (by decide)).2 (by decide)
  rw [this]

/-- C2: PaymentService.refundPayment throws InvalidState (message Only
completed payments can be refunded) on a non-COMPLETED payment; on a
COMPLETED payment a requested amount above the original throws
InvalidAmount (message Refund amount cannot exceed original payment
amount) and leaves the entire store, payment and order included,
unchanged; a valid refund flips the payment to REFUNDED, records the
refund amount, and lowers the order paidAmount by it, floored at 0. -/
theorem refundPayment_contract (now : Time) (st : St) (pid : Nat) (p : Payment)
    (h : st.payments[pid]? = some p) (hpos : 0 < p.amount) (amt : Int)
    (reason? : Option String) :
    (p.status ≠ PaymentStatus.COMPLETED →
      refundPayment now pid (some amt) reason? st
        = (some SErr.onlyCompletedRefundable, st)) ∧
    (p.status = PaymentStatus.COMPLETED → p.amount < amt →
      refundPayment now pid (some amt) reason? st
        = (some SErr.refundExceedsOriginal, st)) ∧
    (p.status = PaymentStatus.COMPLETED → 0 < amt → amt ≤ p.amount →
      (refundPayment now pid (some amt) reason? st).1 = none ∧
      ((refundPayment now pid (some amt) reason? st).2.payments[pid]?).map
        Payment.status = some PaymentStatus.REFUNDED ∧
      ((refundPayment now pid (some amt) reason? st).2.payments[pid]?).map
        Payment.refundAmount = some (some amt) ∧
      (refundPayment now pid (some amt) reason? st).2.order.paidAmount
        = max 0 (st.order.paidAmount - amt)) := by
  have hlt : pid < st.payments.length := lt_of_getElem?_eq_some h
  refine ⟨?_, ?_, ?_⟩
  · intro hp
    simp only [refundPayment, h]
    rw [if_pos hp]
  · intro hp hgt
    have hne : amt ≠ 0 := by omega
    simp only [refundPayment, h]
    rw [if_neg (by simp [hp]), if_neg (by simp [hp])]
    simp only [if_pos hne]
    rw [if_pos (show amt > p.amount from hgt)]
  · intro hp hamt hle
    have hne : amt ≠ 0 := by omega
    simp only [refundPayment, h]
    rw [if_neg (by simp [hp]), if_neg (by simp [hp])]
    simp only [if_pos hne]
    rw [if_neg (show ¬ amt > p.amount by omega)]
    refine ⟨rfl, ?_, ?_, ?_⟩
    · show (((savePayment now pid _ st).payments)[pid]?).map Payment.status = _
      rw [savePayment_payments]
      rw [List.getElem?_set_eq_of_lt _ (by simpa using hlt)]
      simp [paymentPreSave_status]
    · show (((savePayment now pid _ st).payments)[pid]?).map Payment.refundAmount = _
      rw [savePayment_payments]
      rw [List.getElem?_set_eq_of_lt _ (by simpa using hlt)]
      simp [paymentPreSave_refundAmount]
    · show (orderPreSave now _).paidAmount = _
      rw [orderPreSave_paidAmount]
      show max 0 ((savePayment now pid _ st).order.paidAmount - amt) = _
      rw [savePayment_order]
      simp

/-- Witness for C2 at a concrete COMPLETED payment of amount 100 inside a
store with paidAmount 100: a refund request of 130 exceeds the original
and a refund request of 40 succeeds. -/
theorem refundPayment_contract_witness :
    ((⟨⟨1, none, OrderStatus.IN_PROGRESS, 350, 100, none, none⟩,
       [⟨100, 0, some 100, PaymentStatus.COMPLETED, some 3, none, none, none, none⟩],
       []⟩ : St).payments[0]? =
      some ⟨100, 0, some 100, PaymentStatus.COMPLETED, some 3, none, none, none, none⟩) ∧
    (0:Int) < 100 ∧
    (refundPayment 9 0 (some 130) none
      ⟨⟨1, none, OrderStatus.IN_PROGRESS, 350, 100, none, none⟩,
       [⟨100, 0, some 100, PaymentStatus.COMPLETED, some 3, none, none, none, none⟩], []⟩
      = (some SErr.refundExceedsOriginal,
        ⟨⟨1, none, OrderStatus.IN_PROGRESS, 350, 100, none, none⟩,
         [⟨100, 0, some 100, PaymentStatus.COMPLETED, some 3, none, none, none, none⟩], []⟩)) ∧
    (refundPayment 9 0 (some 40) none
      ⟨⟨1, none, OrderStatus.IN_PROGRESS, 350, 100, none, none⟩,
       [⟨100, 0, some 100, PaymentStatus.COMPLETED, some 3, none, none, none, none⟩],
       []⟩).2.order.paidAmount = max 0 (100 - 40) := by
  refine ⟨by decide, by decide, ?_, ?_⟩
  · exact (refundPayment_contract 9
      ⟨⟨1, none, OrderStatus.IN_PROGRESS, 350, 100, none, none⟩,
       [⟨100, 0, some 100, PaymentStatus.COMPLETED, some 3, none, none, none, none⟩], []⟩
      0 ⟨100, 0, some 100, PaymentStatus.COMPLETED, some 3, none, none, none, none⟩
      (by decide) (by decide) 130 none).2.1 (by decide) (by decide)
  · exact ((refundPayment_contract 9
      ⟨⟨1, none, OrderStatus.IN_PROGRESS, 350, 100, none, none⟩,
       [⟨100, 0, some 100, PaymentStatus.COMPLETED, some 3, none, none, none, none⟩], []⟩
      0 ⟨100, 0, some 100, PaymentStatus.COMPLETED, some 3, none, none, none, none⟩
      (by decide) (by decide) 40 none).2.2 (by decide) (by decide) (by decide)).2.2.2

/-- C3 counterexample: a payment of amount 100 created through
PaymentService.createPayment (whose save initializes netAmount to 100) and
then completed with fee 10 ends with netAmount 100, not amount minus fee
= 90, because the pre-save hook recomputes netAmount only when no truthy
netAmount is recorded. -/
theorem completePayment_netAmount_cex :
    (completePayment 5 0 (some 10) ((createPayment 0 100 (initSt 1 350)).2)).1 = none ∧
    ((completePayment 5 0 (some 10)
        ((createPayment 0 100 (initSt 1 350)).2)).2.payments[0]?).map Payment.fee
      = some (some 10 : Option Int).get! ∧
    ((completePayment 5 0 (some 10)
        ((createPayment 0 100 (initSt 1 350)).2)).2.payments[0]?).map Payment.netAmount
      = some (some 100) ∧
    some (some (100:Int)) ≠ some (some (100 - 10 : Int)) := by
  decide

/-- C3 (amended): completePayment throws AlreadyCompleted exactly when the
payment is already COMPLETED; otherwise it sets status COMPLETED and
processedAt now, increments the parent order paidAmount by the amount and
notifies the customer, but netAmount is recomputed from the fee only when
no truthy netAmount is already recorded (a payment persisted by
createPayment always has one), so an already-saved payment keeps its
netAmount instead of getting amount minus fee. -/
theorem completePayment_contract (now : Time) (st : St) (pid : Nat) (p : Payment)
    (fee? : Option Int) (h : st.payments[pid]? = some p) :
    (p.status = PaymentStatus.COMPLETED →
      completePayment now pid fee? st = (some SErr.alreadyCompleted, st)) ∧
    (p.status ≠ PaymentStatus.COMPLETED →
      (completePayment now pid fee? st).1 = none ∧
      ((completePayment now pid fee? st).2.payments[pid]?).map Payment.status
        = some PaymentStatus.COMPLETED ∧
      ((completePayment now pid fee? st).2.payments[pid]?).map Payment.processedAt
        = some (some now) ∧
      ((completePayment now pid fee? st).2.payments[pid]?).map Payment.netAmount
        = some (if truthyNum p.netAmount then p.netAmount
                else if fee?.getD p.fee ≠ 0 then some (p.amount - fee?.getD p.fee)
                else some p.amount) ∧
      (completePayment now pid fee? st).2.order.paidAmount
        = st.order.paidAmount + p.amount ∧
      (completePayment now pid fee? st).2.notifs
        = st.notifs ++ [⟨st.order.customerId, "Payment Received"⟩]) := by
  have hlt : pid < st.payments.length := lt_of_getElem?_eq_some h
  constructor
  · intro hp
    simp only [completePayment, h]
    rw [if_pos hp]
  · intro hp
    simp only [completePayment, h]
    rw [if_neg hp]
    refine ⟨rfl, ?_, ?_, ?_, ?_, ?_⟩
    · show ((savePayment now pid _ st).payments[pid]?).map Payment.status = _
      rw [savePayment_payments, List.getElem?_set_eq_of_lt _ (by simpa using hlt)]
      simp [paymentPreSave_status]
    · show ((savePayment now pid _ st).payments[pid]?).map Payment.processedAt = _
      rw [savePayment_payments, List.getElem?_set_eq_of_lt _ (by simpa using hlt)]
      rw [Option.map_some']
      rw [paymentPreSave_processedAt_of_set _ _ now rfl]
    · show ((savePayment now pid _ st).payments[pid]?).map Payment.netAmount = _
      rw [savePayment_payments, List.getElem?_set_eq_of_lt _ (by simpa using hlt)]
      rw [Option.map_some', paymentPreSave_netAmount]
    · show (savePayment now pid _ st).order.paidAmount = _
      rw [savePayment_order, if_pos rfl]
    · show (savePayment now pid _ st).notifs = _
      rw [savePayment_notifs, if_pos rfl]

/-- Witness for C3 at a concrete PENDING payment of amount 100 with
recorded netAmount 100, completed with fee 10. -/
theorem completePayment_contract_witness :
    ((⟨⟨1, none, OrderStatus.IN_PROGRESS, 350, 0, none, none⟩,
       [⟨100, 0, some 100, PaymentStatus.PENDING, none, none, none, none, none⟩],
       []⟩ : St).payments[0]? =
      some ⟨100, 0, some 100, PaymentStatus.PENDING, none, none, none, none, none⟩) ∧
    (completePayment 5 0 (some 10)
      ⟨⟨1, none, OrderStatus.IN_PROGRESS, 350, 0, none, none⟩,
       [⟨100, 0, some 100, PaymentStatus.PENDING, none, none, none, none, none⟩],
       []⟩).2.order.paidAmount = 0 + 100 := by
  refine ⟨by decide, ?_⟩
  exact ((completePayment_contract 5
    ⟨⟨1, none, OrderStatus.IN_PROGRESS, 350, 0, none, none⟩,
     [⟨100, 0, some 100, PaymentStatus.PENDING, none, none, none, none, none⟩], []⟩
    0 ⟨100, 0, some 100, PaymentStatus.PENDING, none, none, none, none, none⟩
    (some 10) (by decide)).2 (by decide)).2.2.2.2.1

/-- C6: ReviewService.completeReview on an incomplete review succeeds,
flips isComplete to true and, through the review post-save hook, drives
the parent order to exactly status COMPLETED with completedAt set to now;
a second call fails with AlreadyComplete (message Review is already
completed) and changes nothing. -/
theorem completeReview_contract (now now2 : Time) (rst : RSt)
    (h : rst.review.isComplete = false) :
    (completeReview now rst).1 = none ∧
    (completeReview now rst).2.review.isComplete = true ∧
    (completeReview now rst).2.order.status = OrderStatus.COMPLETED ∧
    (completeReview now rst).2.order.completedAt = some now ∧
    completeReview now2 (completeReview now rst).2
      = (some RErr.alreadyComplete, (completeReview now rst).2) := by
  simp [completeReview, saveReview, reviewPostSave, h]

/-- Witness for C6 at a concrete incomplete review whose order sits in
UNDER_REVIEW. -/
theorem completeReview_contract_witness :
    ((⟨⟨false⟩, ⟨1, some 2, OrderStatus.UNDER_REVIEW, 350, 0, some 3, none⟩⟩ : RSt).review.isComplete
      = false) ∧
    (completeReview 7 ⟨⟨false⟩, ⟨1, some 2, OrderStatus.UNDER_REVIEW, 350, 0, some 3, none⟩⟩).2.order.status
      = OrderStatus.COMPLETED := by
  refine ⟨by decide, ?_⟩
  exact (completeReview_contract 7 11
    ⟨⟨false⟩, ⟨1, some 2, OrderStatus.UNDER_REVIEW, 350, 0, some 3, none⟩⟩ (by decide)).2.2.1

/-- C5 counterexample: an order whose completedAt is already 5 gets it
overwritten to 9 by OrderService.updateOrderStatus with newStatus
COMPLETED, so completedAt is not write-once and the claimed only-if-unset
guard does not hold at the service layer. -/
theorem updateOrderStatus_completedAt_cex :
    (updateOrderStatus 9 OrderStatus.COMPLETED
      ⟨⟨1, some 2, OrderStatus.COMPLETED, 350, 350, some 3, some 5⟩, [], []⟩).2.order.completedAt
      = some 9 ∧
    some (9 : Time) ≠ some (5 : Time) := by
  decide

/-- C5 (amended): OrderService.updateOrderStatus with newStatus COMPLETED
always stamps completedAt := now, overwriting any earlier value (the
service assigns the field before saving, so the only-if-unset guard of the
Order pre-save hook never fires on this path); re-saving an
already-complete review likewise resets the parent order completedAt to
now through the review post-save hook; only the Order pre-save hook taken
alone preserves an already-set completedAt. -/
theorem completedAt_overwrite (now : Time) (st : St) (rst : RSt) (t : Time) :
    (updateOrderStatus now OrderStatus.COMPLETED st).2.order.completedAt = some now ∧
    (rst.review.isComplete = true → (saveReview now rst).order.completedAt = some now) ∧
    (st.order.completedAt = some t → (orderPreSave now st.order).completedAt = some t) := by
  refine ⟨?_, ?_, fun hset => orderPreSave_completedAt_of_set now st.order t hset⟩
  · simp only [updateOrderStatus]
    split_ifs <;> exact orderPreSave_completedAt_of_set _ _ _ rfl
  · intro hc
    simp [saveReview, reviewPostSave, hc]

/-- Witness for C5 at a concrete completed order and a concrete complete
review. -/
theorem completedAt_overwrite_witness :
    ((⟨⟨true⟩, ⟨1, some 2, OrderStatus.COMPLETED, 350, 350, some 3, some 5⟩⟩ : RSt).review.isComplete
      = true) ∧
    (saveReview 9 ⟨⟨true⟩, ⟨1, some 2, OrderStatus.COMPLETED, 350, 350, some 3, some 5⟩⟩).order.completedAt
      = some 9 := by
  refine ⟨by decide, ?_⟩
  exact (completedAt_overwrite 9
    ⟨⟨1, some 2, OrderStatus.COMPLETED, 350, 350, some 3, some 5⟩, [], []⟩
    ⟨⟨true⟩, ⟨1, some 2, OrderStatus.COMPLETED, 350, 350, some 3, some 5⟩⟩ 5).2.1 (by decide)

/-- C7 counterexample: on an order in status ASSIGNED, an assignment
request whose reviewerId does not resolve fails with InvalidReviewer
(message Invalid or inactive reviewer), not InvalidState, because the
reviewer lookup is validated before the order state; the claim demands
InvalidState for every reviewerId. -/
theorem assignReviewer_invalidReviewer_cex :
    assignReviewer 9 none 2 ⟨⟨1, none, OrderStatus.ASSIGNED, 350, 0, none, none⟩, [], []⟩
      = (some SErr.invalidReviewer,
         ⟨⟨1, none, OrderStatus.ASSIGNED, 350, 0, none, none⟩, [], []⟩) ∧
    SErr.invalidReviewer ≠ SErr.cannotBeAssigned := by
  decide

/-- C7 (amended): on an order not in PENDING_REVIEW,
OrderService.assignReviewer fails with InvalidState (message Order cannot
be assigned at this time) whenever the reviewerId resolves to an active
user with role REVIEWER, and with InvalidReviewer when it does not
(reviewer validation precedes the state check); in every failing case the
whole store, the order included, is returned unmodified. -/
theorem assignReviewer_contract (now : Time) (st : St) (u : User) (rid : Nat)
    (h : st.order.status ≠ OrderStatus.PENDING_REVIEW) :
    (u.isActive = true → u.role = UserRole.REVIEWER →
      assignReviewer now (some u) rid st = (some SErr.cannotBeAssigned, st)) ∧
    (assignReviewer now none rid st = (some SErr.invalidReviewer, st)) ∧
    (u.isActive = false ∨ u.role ≠ UserRole.REVIEWER →
      assignReviewer now (some u) rid st = (some SErr.invalidReviewer, st)) := by
  refine ⟨?_, ?_, ?_⟩
  · intro hA hR
    simp only [assignReviewer]
    rw [if_neg (by simp [hA, hR]), if_pos (by simpa using h)]
  · simp [assignReviewer]
  · intro hu
    simp only [assignReviewer]
    rw [if_pos ?_]
    rcases hu with hu | hu <;> simp [hu]

/-- Witness for C7 at a concrete ASSIGNED order, with a valid reviewer and
with an inactive one. -/
theorem assignReviewer_contract_witness :
    ((⟨⟨1, none, OrderStatus.ASSIGNED, 350, 0, none, none⟩, [], []⟩ : St).order.status
      ≠ OrderStatus.PENDING_REVIEW) ∧
    (assignReviewer 9 (some ⟨UserRole.REVIEWER, true⟩) 2
        ⟨⟨1, none, OrderStatus.ASSIGNED, 350, 0, none, none⟩, [], []⟩
      = (some SErr.cannotBeAssigned,
         ⟨⟨1, none, OrderStatus.ASSIGNED, 350, 0, none, none⟩, [], []⟩)) ∧
    (assignReviewer 9 (some ⟨UserRole.REVIEWER, false⟩) 2
        ⟨⟨1, none, OrderStatus.ASSIGNED, 350, 0, none, none⟩, [], []⟩
      = (some SErr.invalidReviewer,
         ⟨⟨1, none, OrderStatus.ASSIGNED, 350, 0, none, none⟩, [], []⟩)) := by
  refine ⟨by decide, ?_, ?_⟩
  · exact (assignReviewer_contract 9
      ⟨⟨1, none, OrderStatus.ASSIGNED, 350, 0, none, none⟩, [], []⟩
      ⟨UserRole.REVIEWER, true⟩ 2 (by decide)).1 rfl rfl
  · exact (assignReviewer_contract 9
      ⟨⟨1, none, OrderStatus.ASSIGNED, 350, 0, none, none⟩, [], []⟩
      ⟨UserRole.REVIEWER, false⟩ 2 (by decide)).2.2 (Or.inl rfl)

/-- C8: the download permission guard of DocumentService.downloadDocument
is the JS conjunct requester differs from customer AND (reviewerId is
truthy AND differs from requester); on an order with no reviewer assigned
the second conjunct is falsy, so a requester who is neither the customer
nor a reviewer (here user 2 against customer 1) is NOT rejected: the
download succeeds and downloadCount is incremented from 0 to 1, against
the claimed Forbidden rejection. -/
theorem downloadDocument_nullReviewer_bug :
    downloadDocument 2 (some ⟨true, 0⟩)
        ⟨1, none, OrderStatus.PENDING_REVIEW, 350, 0, none, none⟩ true
      = (none, some ⟨true, 1⟩) ∧
    (2 : Nat) ≠ 1 := by
  decide

/-- C1: the booked interval [0, 60) for reviewer 7 overlaps the requested
interval [30, 90) under the overlap test the repository itself uses in the
availability endpoint, yet the booking POST handler, which compares
scheduledDate for equality only, accepts the second booking instead of
returning the 409 slot-taken error; the Mongo-layer
ConsultationService.scheduleConsultation performs no overlap check at
all. -/
theorem postBooking_overlap_bug :
    slotsOverlap 0 60 30 60 = true ∧
    postBooking [⟨7, 0, 60, ConsultationStatus.SCHEDULED⟩] 7 30 60
      = (none, [⟨7, 0, 60, ConsultationStatus.SCHEDULED⟩,
                ⟨7, 30, 60, ConsultationStatus.SCHEDULED⟩]) := by
  decide

/-- C9 counterexample: a consultation in IN_PROGRESS is cancelled
successfully, so CANCELLED is reachable from IN_PROGRESS, not only from
SCHEDULED as the claim states. -/
theorem cancelConsultation_inProgress_cex :
    (cancelConsultation 5 none
      ⟨100, 60, ConsultationStatus.IN_PROGRESS, none, ⟨false, false, false⟩, [], some 2, none⟩).1
      = none ∧
    (cancelConsultation 5 none
      ⟨100, 60, ConsultationStatus.IN_PROGRESS, none, ⟨false, false, false⟩, [], some 2, none⟩).2.status
      = ConsultationStatus.CANCELLED := by
  decide

theorem consultationPreSave_status (now : Time) (c : Consultation) :
    (consultationPreSave now c).status = c.status := by
  unfold consultationPreSave; dsimp only; split_ifs <;> rfl

theorem consultationPreSave_scheduledDate (now : Time) (c : Consultation) :
    (consultationPreSave now c).scheduledDate = c.scheduledDate := by
  unfold consultationPreSave; dsimp only; split_ifs <;> rfl

theorem consultationPreSave_reminders (now : Time) (c : Consultation) :
    (consultationPreSave now c).reminders = c.reminders := by
  unfold consultationPreSave; dsimp only; split_ifs <;> rfl

theorem consultationPreSave_rescheduleHistory (now : Time) (c : Consultation) :
    (consultationPreSave now c).rescheduleHistory = c.rescheduleHistory := by
  unfold consultationPreSave; dsimp only; split_ifs <;> rfl

/-- C9 (amended): the consultation transitions reachable through the
scheduler operations are exactly: IN_PROGRESS entered only by start() from
SCHEDULED, COMPLETED only by complete() from IN_PROGRESS, CANCELLED
entered by cancel() from SCHEDULED or from IN_PROGRESS (the claim allowed
only SCHEDULED), and reschedule keeping SCHEDULED while moving the date,
appending the previous date to rescheduleHistory and resetting all three
reminder flags; every guarded rejection returns the consultation
unchanged, so no other status transition is possible through these
operations. -/
theorem consultationStep_charact (now : Time) (c : Consultation) (op : COp) :
    ((applyCOp now c op).1.isSome = true → (applyCOp now c op).2 = c) ∧
    ((applyCOp now c op).1 = none →
      (match op with
       | COp.start =>
         c.status = ConsultationStatus.SCHEDULED ∧
         (applyCOp now c op).2.status = ConsultationStatus.IN_PROGRESS
       | COp.complete _ =>
         c.status = ConsultationStatus.IN_PROGRESS ∧
         (applyCOp now c op).2.status = ConsultationStatus.COMPLETED
       | COp.cancel _ =>
         (c.status = ConsultationStatus.SCHEDULED ∨
          c.status = ConsultationStatus.IN_PROGRESS) ∧
         (applyCOp now c op).2.status = ConsultationStatus.CANCELLED
       | COp.reschedule d r b =>
         c.status = ConsultationStatus.SCHEDULED ∧ now < d ∧
         (applyCOp now c op).2.status = ConsultationStatus.SCHEDULED ∧
         (applyCOp now c op).2.scheduledDate = d ∧
         (applyCOp now c op).2.rescheduleHistory
           = c.rescheduleHistory ++ [⟨c.scheduledDate, r, b, now⟩] ∧
         (applyCOp now c op).2.reminders = ⟨false, false, false⟩)) := by
  cases op with
  | start =>
    simp only [applyCOp, startConsultation]
    by_cases hs : c.status = ConsultationStatus.SCHEDULED
    · rw [if_neg (by simp [hs])]
      exact ⟨by simp, fun _ => ⟨hs, by rw [consultationPreSave_status]⟩⟩
    · rw [if_pos hs]
      exact ⟨fun _ => rfl, by simp⟩
  | complete n? =>
    simp only [applyCOp, completeConsultation]
    by_cases hs : c.status = ConsultationStatus.IN_PROGRESS
    · rw [if_neg (by simp [hs])]
      exact ⟨by simp, fun _ => ⟨hs, by rw [consultationPreSave_status]⟩⟩
    · rw [if_pos hs]
      exact ⟨fun _ => rfl, by simp⟩
  | cancel r? =>
    simp only [applyCOp, cancelConsultation]
    by_cases hs : c.status = ConsultationStatus.SCHEDULED ∨
        c.status = ConsultationStatus.IN_PROGRESS
    · rw [if_neg (not_not_intro hs)]
      exact ⟨by simp, fun _ => ⟨hs, by rw [consultationPreSave_status]⟩⟩
    · rw [if_pos hs]
      exact ⟨fun _ => rfl, by simp⟩
  | reschedule d r b =>
    simp only [applyCOp, rescheduleConsultation]
    by_cases hs : c.status = ConsultationStatus.SCHEDULED
    · by_cases hd : d ≤ now
      · rw [if_neg (by simp [hs]), if_pos hd]
        exact ⟨fun _ => rfl, by simp⟩
      · rw [if_neg (by simp [hs]), if_neg hd]
        refine ⟨by simp, fun _ => ⟨hs, not_le.mp hd, ?_, ?_, ?_, ?_⟩⟩
        · rw [consultationPreSave_status]
        · rw [consultationPreSave_scheduledDate]
        · rw [consultationPreSave_rescheduleHistory]
        · rw [consultationPreSave_reminders]
    · rw [if_pos hs]
      exact ⟨fun _ => rfl, by simp⟩

/-! ## Invariant machinery for the paidAmount accounting claim -/

theorem mem_of_getElem?_eq_some {α : Type} {l : List α} {i : Nat} {a : α}
    (h : l[i]? = some a) : a ∈ l := by
  induction l generalizing i with
  | nil => simp at h
  | cons b t ih =>
    cases i with
    | zero =>
      rw [List.getElem?_cons_zero, Option.some_inj] at h
      subst h
      exact List.mem_cons_self b t
    | succ n =>
      rw [List.getElem?_cons_succ] at h
      exact List.mem_cons_of_mem _ (ih h)

theorem updateOrderStatus_payments (now : Time) (stat : OrderStatus) (st : St) :
    (updateOrderStatus now stat st).2.payments = st.payments := by
  simp only [updateOrderStatus]; split_ifs <;> rfl

theorem updateOrderStatus_paid (now : Time) (stat : OrderStatus) (st : St) :
    (updateOrderStatus now stat st).2.order.paidAmount = st.order.paidAmount := by
  simp only [updateOrderStatus]
  split_ifs <;>
    (show (orderPreSave now _).paidAmount = _; rw [orderPreSave_paidAmount])

theorem cancelOrder_payments (now : Time) (st : St) :
    (cancelOrder now st).2.payments = st.payments := by
  simp only [cancelOrder]; split_ifs <;> rfl

theorem cancelOrder_paid (now : Time) (st : St) :
    (cancelOrder now st).2.order.paidAmount = st.order.paidAmount := by
  simp only [cancelOrder]
  split_ifs
  · rfl
  · show (orderPreSave now _).paidAmount = _; rw [orderPreSave_paidAmount]

theorem assignReviewer_payments (now : Time) (u : Option User) (rid : Nat) (st : St) :
    (assignReviewer now u rid st).2.payments = st.payments := by
  simp only [assignReviewer]; split_ifs <;> rfl

theorem assignReviewer_paid (now : Time) (u : Option User) (rid : Nat) (st : St) :
    (assignReviewer now u rid st).2.order.paidAmount = st.order.paidAmount := by
  simp only [assignReviewer]
  split_ifs <;>
    first
      | rfl
      | (show (orderPreSave now _).paidAmount = _; rw [orderPreSave_paidAmount])

theorem createPayment_step (now : Time) (a : Int) (st : St) (hinv : LedgerInv st) :
    LedgerInv (createPayment now a st).2 ∧
    (createPayment now a st).2.order.paidAmount = st.order.paidAmount := by
  obtain ⟨hpos, hsum⟩ := hinv
  by_cases ha : a ≤ 0
  · simp only [createPayment]; rw [if_pos ha]; exact ⟨⟨hpos, hsum⟩, rfl⟩
  · simp only [createPayment]; rw [if_neg ha]
    have hst : (paymentPreSave now
        ⟨a, 0, none, PaymentStatus.PENDING, none, none, none, none, none⟩).status
        = PaymentStatus.PENDING := by rw [paymentPreSave_status]
    have hamt : (paymentPreSave now
        ⟨a, 0, none, PaymentStatus.PENDING, none, none, none, none, none⟩).amount = a := by
      rw [paymentPreSave_amount]
    have hnc : ¬ (paymentPreSave now
        ⟨a, 0, none, PaymentStatus.PENDING, none, none, none, none, none⟩).status
        = PaymentStatus.COMPLETED := by rw [hst]; decide
    refine ⟨⟨?_, ?_⟩, ?_⟩
    · intro q hq
      rw [paymentPostSave_payments] at hq
      dsimp only at hq
      rcases List.mem_append.mp hq with h1 | h2
      · exact hpos q h1
      · rw [List.mem_singleton] at h2
        subst h2; rw [hamt]; omega
    · show completedSum (paymentPostSave _ _).payments
        ≤ (paymentPostSave _ _).order.paidAmount
      rw [paymentPostSave_payments, paymentPostSave_order_of_not_completed _ _ hnc]
      dsimp only
      rw [completedSum_append_singleton, if_neg hnc]
      omega
    · show (paymentPostSave _ _).order.paidAmount = _
      rw [paymentPostSave_order_of_not_completed _ _ hnc]

theorem completePayment_step (now : Time) (pid : Nat) (f? : Option Int) (st : St)
    (hinv : LedgerInv st) :
    LedgerInv (completePayment now pid f? st).2 ∧
    (completePayment now pid f? st).2.order.paidAmount
      = st.order.paidAmount + opDelta st (Op.completePay pid f?) := by
  obtain ⟨hpos, hsum⟩ := hinv
  cases hm : st.payments[pid]? with
  | none =>
    simp only [completePayment, opDelta, hm]
    exact ⟨⟨hpos, hsum⟩, by ring⟩
  | some p =>
    by_cases hc : p.status = PaymentStatus.COMPLETED
    · simp only [completePayment, opDelta, hm]
      rw [if_pos hc, if_pos hc]
      exact ⟨⟨hpos, hsum⟩, by ring⟩
    · simp only [completePayment, opDelta, hm]
      rw [if_neg hc, if_neg hc]
      set q : Payment :=
        { amount := p.amount, fee := f?.getD p.fee, netAmount := p.netAmount
          status := PaymentStatus.COMPLETED, processedAt := some now
          refundedAt := p.refundedAt, refundAmount := p.refundAmount
          refundReason := p.refundReason, failureReason := p.failureReason } with hqdef
      have hqs : (paymentPreSave now q).status = PaymentStatus.COMPLETED := by
        rw [paymentPreSave_status]
      have hqa : (paymentPreSave now q).amount = p.amount := by
        rw [paymentPreSave_amount]
      refine ⟨⟨?_, ?_⟩, ?_⟩
      · intro r hr
        rw [savePayment_payments] at hr
        rcases List.mem_or_eq_of_mem_set hr with h1 | h2
        · exact hpos r h1
        · subst h2; rw [hqa]
          exact hpos p (mem_of_getElem?_eq_some hm)
      · show completedSum (savePayment now pid q st).payments
          ≤ (savePayment now pid q st).order.paidAmount
        rw [savePayment_payments, savePayment_order]
        rw [completedSum_set st.payments pid p _ hm]
        rw [if_neg hc, if_pos hqs, if_pos rfl, hqa]
        dsimp only
        omega
      · show (savePayment now pid q st).order.paidAmount = _
        rw [savePayment_order, if_pos rfl]

theorem failPayment_step (now : Time) (pid : Nat) (r? : Option String) (st : St)
    (hinv : LedgerInv st) :
    LedgerInv (failPayment now pid r? st).2 ∧
    (failPayment now pid r? st).2.order.paidAmount = st.order.paidAmount := by
  obtain ⟨hpos, hsum⟩ := hinv
  cases hm : st.payments[pid]? with
  | none => simp only [failPayment, hm]; exact ⟨⟨hpos, hsum⟩, by trivial⟩
  | some p =>
    by_cases hc : p.status = PaymentStatus.FAILED
    · simp only [failPayment, hm]; rw [if_pos hc]; exact ⟨⟨hpos, hsum⟩, by trivial⟩
    · simp only [failPayment, hm]; rw [if_neg hc]
      set q : Payment :=
        { amount := p.amount, fee := p.fee, netAmount := p.netAmount
          status := PaymentStatus.FAILED, processedAt := p.processedAt
          refundedAt := p.refundedAt, refundAmount := p.refundAmount
          refundReason := p.refundReason
          failureReason := if r?.isSome = true then r? else p.failureReason } with hqdef
      have hqF : q.status = PaymentStatus.FAILED := rfl
      have hqs : (paymentPreSave now q).status = PaymentStatus.FAILED := by
        rw [paymentPreSave_status, hqF]
      have hqa : (paymentPreSave now q).amount = p.amount := by
        rw [paymentPreSave_amount]
      have hqnc : ¬ (paymentPreSave now q).status = PaymentStatus.COMPLETED := by
        rw [hqs]; decide
      have hqnc2 : ¬ q.status = PaymentStatus.COMPLETED := by rw [hqF]; decide
      have h0 : (0:Int) ≤ if p.status = PaymentStatus.COMPLETED then p.amount else 0 := by
        have := hpos p (mem_of_getElem?_eq_some hm)
        split_ifs <;> omega
      refine ⟨⟨?_, ?_⟩, ?_⟩
      · show ∀ r ∈ (savePayment now pid q st).payments, 0 < r.amount
        intro r hr
        rw [savePayment_payments] at hr
        rcases List.mem_or_eq_of_mem_set hr with h1 | h2
        · exact hpos r h1
        · subst h2; rw [hqa]
          exact hpos p (mem_of_getElem?_eq_some hm)
      · show completedSum (savePayment now pid q st).payments
          ≤ (savePayment now pid q st).order.paidAmount
        rw [savePayment_payments, savePayment_order, if_neg hqnc2]
        rw [completedSum_set st.payments pid p _ hm, if_neg hqnc]
        omega
      · show (savePayment now pid q st).order.paidAmount = _
        rw [savePayment_order, if_neg hqnc2]

theorem refundPayment_step (now : Time) (pid : Nat) (a? : Option Int)
    (r? : Option String) (st : St) (hinv : LedgerInv st) :
    LedgerInv (refundPayment now pid a? r? st).2 ∧
    (refundPayment now pid a? r? st).2.order.paidAmount
      = st.order.paidAmount + opDelta st (Op.refundPay pid a? r?) := by
  obtain ⟨hpos, hsum⟩ := hinv
  cases hm : st.payments[pid]? with
  | none =>
    simp only [refundPayment, opDelta, hm]
    exact ⟨⟨hpos, hsum⟩, by ring⟩
  | some p =>
    by_cases hc : p.status = PaymentStatus.COMPLETED
    · have hple : p.amount ≤ completedSum st.payments := by
        have := contrib_le_completedSum st.payments pid p hm hpos
        rwa [if_pos hc] at this
      have hppos : 0 < p.amount := hpos p (mem_of_getElem?_eq_some hm)
      set r : Int := match a? with
        | some a => if a ≠ 0 then a else p.amount
        | none => p.amount with hrdef
      by_cases hr : r > p.amount
      · simp only [refundPayment, opDelta, hm]
        rw [if_neg (not_not_intro hc), if_neg (by rw [hc]; decide), if_pos hc]
        rw [← hrdef, if_pos hr, if_pos hr]
        exact ⟨⟨hpos, hsum⟩, by ring⟩
      · simp only [refundPayment, opDelta, hm]
        rw [if_neg (not_not_intro hc), if_neg (by rw [hc]; decide), if_pos hc]
        rw [← hrdef, if_neg hr, if_neg hr]
        set q : Payment :=
          { amount := p.amount, fee := p.fee, netAmount := p.netAmount
            status := PaymentStatus.REFUNDED, processedAt := p.processedAt
            refundedAt := some now, refundAmount := some r
            refundReason := r?, failureReason := p.failureReason } with hqdef
        have hqR : q.status = PaymentStatus.REFUNDED := rfl
        have hqs : (paymentPreSave now q).status = PaymentStatus.REFUNDED := by
          rw [paymentPreSave_status, hqR]
        have hqa : (paymentPreSave now q).amount = p.amount := by
          rw [paymentPreSave_amount]
        have hqnc : ¬ q.status = PaymentStatus.COMPLETED := by rw [hqR]; decide
        have hqnc2 : ¬ (paymentPreSave now q).status = PaymentStatus.COMPLETED := by
          rw [hqs]; decide
        have hmax : max 0 ((savePayment now pid q st).order.paidAmount - r)
            = st.order.paidAmount - r := by
          rw [savePayment_order, if_neg hqnc]
          omega
        refine ⟨⟨?_, ?_⟩, ?_⟩
        · show ∀ s ∈ (savePayment now pid q st).payments, 0 < s.amount
          intro s hs
          rw [savePayment_payments] at hs
          rcases List.mem_or_eq_of_mem_set hs with h1 | h2
          · exact hpos s h1
          · subst h2; rw [hqa]; exact hppos
        · show completedSum (savePayment now pid q st).payments
            ≤ (orderPreSave now
              { (savePayment now pid q st).order with
                paidAmount := max 0 ((savePayment now pid q st).order.paidAmount - r) }).paidAmount
          rw [orderPreSave_paidAmount]
          dsimp only
          rw [hmax, savePayment_payments, completedSum_set st.payments pid p _ hm]
          rw [if_pos hc, if_neg hqnc2]
          omega
        · show (orderPreSave now
              { (savePayment now pid q st).order with
                paidAmount := max 0 ((savePayment now pid q st).order.paidAmount - r) }).paidAmount = _
          rw [orderPreSave_paidAmount]
          dsimp only
          rw [hmax]
          ring
    · simp only [refundPayment, opDelta, hm]
      rw [if_pos hc, if_neg hc]
      exact ⟨⟨hpos, hsum⟩, by ring⟩

theorem cancelPayment_step (now : Time) (pid : Nat) (st : St) (hinv : LedgerInv st) :
    LedgerInv (cancelPayment now pid st).2 ∧
    (cancelPayment now pid st).2.order.paidAmount = st.order.paidAmount := by
  obtain ⟨hpos, hsum⟩ := hinv
  cases hm : st.payments[pid]? with
  | none => simp only [cancelPayment, hm]; exact ⟨⟨hpos, hsum⟩, by trivial⟩
  | some p =>
    by_cases hc : p.status = PaymentStatus.PENDING
    · simp only [cancelPayment, hm]; rw [if_pos hc]
      set q : Payment :=
        { amount := p.amount, fee := p.fee, netAmount := p.netAmount
          status := PaymentStatus.CANCELLED, processedAt := p.processedAt
          refundedAt := p.refundedAt, refundAmount := p.refundAmount
          refundReason := p.refundReason, failureReason := p.failureReason } with hqdef
      have hqC : q.status = PaymentStatus.CANCELLED := rfl
      have hqs : (paymentPreSave now q).status = PaymentStatus.CANCELLED := by
        rw [paymentPreSave_status, hqC]
      have hqa : (paymentPreSave now q).amount = p.amount := by
        rw [paymentPreSave_amount]
      have hqnc : ¬ q.status = PaymentStatus.COMPLETED := by rw [hqC]; decide
      have hqnc2 : ¬ (paymentPreSave now q).status = PaymentStatus.COMPLETED := by
        rw [hqs]; decide
      have hcp : ¬ p.status = PaymentStatus.COMPLETED := by rw [hc]; decide
      refine ⟨⟨?_, ?_⟩, ?_⟩
      · show ∀ s ∈ (savePayment now pid q st).payments, 0 < s.amount
        intro s hs
        rw [savePayment_payments] at hs
        rcases List.mem_or_eq_of_mem_set hs with h1 | h2
        · exact hpos s h1
        · subst h2; rw [hqa]
          exact hpos p (mem_of_getElem?_eq_some hm)
      · show completedSum (savePayment now pid q st).payments
          ≤ (savePayment now pid q st).order.paidAmount
        rw [savePayment_payments, savePayment_order, if_neg hqnc]
        rw [completedSum_set st.payments pid p _ hm]
        rw [if_neg hcp, if_neg hqnc2]
        omega
      · show (savePayment now pid q st).order.paidAmount = _
        rw [savePayment_order, if_neg hqnc]
    · simp only [cancelPayment, hm]; rw [if_neg hc]; exact ⟨⟨hpos, hsum⟩, by trivial⟩

theorem retryPayment_step (now : Time) (pid : Nat) (st : St) (hinv : LedgerInv st) :
    LedgerInv (retryFailedPayment now pid st).2 ∧
    (retryFailedPayment now pid st).2.order.paidAmount = st.order.paidAmount := by
  obtain ⟨hpos, hsum⟩ := hinv
  cases hm : st.payments[pid]? with
  | none => simp only [retryFailedPayment, hm]; exact ⟨⟨hpos, hsum⟩, by trivial⟩
  | some p =>
    by_cases hc : p.status = PaymentStatus.FAILED
    · simp only [retryFailedPayment, hm]; rw [if_neg (not_not_intro hc)]
      set q : Payment :=
        { amount := p.amount, fee := p.fee, netAmount := p.netAmount
          status := PaymentStatus.PENDING, processedAt := p.processedAt
          refundedAt := p.refundedAt, refundAmount := p.refundAmount
          refundReason := p.refundReason, failureReason := none } with hqdef
      have hqP : q.status = PaymentStatus.PENDING := rfl
      have hqs : (paymentPreSave now q).status = PaymentStatus.PENDING := by
        rw [paymentPreSave_status, hqP]
      have hqa : (paymentPreSave now q).amount = p.amount := by
        rw [paymentPreSave_amount]
      have hqnc : ¬ q.status = PaymentStatus.COMPLETED := by rw [hqP]; decide
      have hqnc2 : ¬ (paymentPreSave now q).status = PaymentStatus.COMPLETED := by
        rw [hqs]; decide
      have hcp : ¬ p.status = PaymentStatus.COMPLETED := by rw [hc]; decide
      refine ⟨⟨?_, ?_⟩, ?_⟩
      · show ∀ s ∈ (savePayment now pid q st).payments, 0 < s.amount
        intro s hs
        rw [savePayment_payments] at hs
        rcases List.mem_or_eq_of_mem_set hs with h1 | h2
        · exact hpos s h1
        · subst h2; rw [hqa]
          exact hpos p (mem_of_getElem?_eq_some hm)
      · show completedSum (savePayment now pid q st).payments
          ≤ (savePayment now pid q st).order.paidAmount
        rw [savePayment_payments, savePayment_order, if_neg hqnc]
        rw [completedSum_set st.payments pid p _ hm]
        rw [if_neg hcp, if_neg hqnc2]
        omega
      · show (savePayment now pid q st).order.paidAmount = _
        rw [savePayment_order, if_neg hqnc]
    · simp only [retryFailedPayment, hm]; rw [if_pos hc]; exact ⟨⟨hpos, hsum⟩, by trivial⟩

theorem applyOp_step (st : St) (top : Time × Op) (hinv : LedgerInv st) :
    LedgerInv (applyOp st top) ∧
    (applyOp st top).order.paidAmount = st.order.paidAmount + opDelta st top.2 := by
  obtain ⟨now, op⟩ := top
  cases op with
  | createPay a =>
    have h := createPayment_step now a st hinv
    refine ⟨h.1, ?_⟩
    show (createPayment now a st).2.order.paidAmount = st.order.paidAmount + 0
    rw [h.2]; ring
  | completePay pid f? => exact completePayment_step now pid f? st hinv
  | failPay pid r? =>
    have h := failPayment_step now pid r? st hinv
    refine ⟨h.1, ?_⟩
    show (failPayment now pid r? st).2.order.paidAmount = st.order.paidAmount + 0
    rw [h.2]; ring
  | refundPay pid a? r? => exact refundPayment_step now pid a? r? st hinv
  | cancelPay pid =>
    have h := cancelPayment_step now pid st hinv
    refine ⟨h.1, ?_⟩
    show (cancelPayment now pid st).2.order.paidAmount = st.order.paidAmount + 0
    rw [h.2]; ring
  | retryPay pid =>
    have h := retryPayment_step now pid st hinv
    refine ⟨h.1, ?_⟩
    show (retryFailedPayment now pid st).2.order.paidAmount = st.order.paidAmount + 0
    rw [h.2]; ring
  | setStatus s =>
    obtain ⟨hpos, hsum⟩ := hinv
    refine ⟨⟨?_, ?_⟩, ?_⟩
    · intro q hq
      rw [show applyOp st (now, Op.setStatus s) = (updateOrderStatus now s st).2 from rfl,
        updateOrderStatus_payments] at hq
      exact hpos q hq
    · show completedSum (updateOrderStatus now s st).2.payments
        ≤ (updateOrderStatus now s st).2.order.paidAmount
      rw [updateOrderStatus_payments, updateOrderStatus_paid]
      exact hsum
    · show (updateOrderStatus now s st).2.order.paidAmount = st.order.paidAmount + 0
      rw [updateOrderStatus_paid]; ring
  | cancelOrd =>
    obtain ⟨hpos, hsum⟩ := hinv
    refine ⟨⟨?_, ?_⟩, ?_⟩
    · intro q hq
      rw [show applyOp st (now, Op.cancelOrd) = (cancelOrder now st).2 from rfl,
        cancelOrder_payments] at hq
      exact hpos q hq
    · show completedSum (cancelOrder now st).2.payments
        ≤ (cancelOrder now st).2.order.paidAmount
      rw [cancelOrder_payments, cancelOrder_paid]
      exact hsum
    · show (cancelOrder now st).2.order.paidAmount = st.order.paidAmount + 0
      rw [cancelOrder_paid]; ring
  | assign u rid =>
    obtain ⟨hpos, hsum⟩ := hinv
    refine ⟨⟨?_, ?_⟩, ?_⟩
    · intro q hq
      rw [show applyOp st (now, Op.assign u rid) = (assignReviewer now u rid st).2 from rfl,
        assignReviewer_payments] at hq
      exact hpos q hq
    · show completedSum (assignReviewer now u rid st).2.payments
        ≤ (assignReviewer now u rid st).2.order.paidAmount
      rw [assignReviewer_payments, assignReviewer_paid]
      exact hsum
    · show (assignReviewer now u rid st).2.order.paidAmount = st.order.paidAmount + 0
      rw [assignReviewer_paid]; ring

theorem replay_paid (tr : List (Time × Op)) : ∀ st : St, LedgerInv st →
    LedgerInv (replay st tr) ∧
    (replay st tr).order.paidAmount = st.order.paidAmount + ledgerSum st tr := by
  induction tr with
  | nil =>
    intro st h
    exact ⟨h, by simp [replay, ledgerSum]⟩
  | cons top tr ih =>
    intro st h
    have hstep := applyOp_step st top h
    have hrec := ih (applyOp st top) hstep.1
    refine ⟨hrec.1, ?_⟩
    show (replay (applyOp st top) tr).order.paidAmount = _
    rw [hrec.2, hstep.2, ledgerSum]
    ring

/-- C4 counterexample: on an order with totalAmount 350, creating and
completing a single payment of amount 400 drives paidAmount to 400, above
totalAmount — no operation bounds payment amounts by the order total, so
the claimed paidAmount ≤ totalAmount invariant fails. -/
theorem paidAmount_exceeds_total_cex :
    (replay (initSt 1 350)
      [(0, Op.createPay 400), (1, Op.completePay 0 none)]).order.paidAmount = 400 ∧
    (replay (initSt 1 350)
      [(0, Op.createPay 400), (1, Op.completePay 0 none)]).order.totalAmount = 350 ∧
    ¬ ((400:Int) ≤ 350) := by
  decide

/-- C4 (amended): under sequential ledger and order operations starting
from a fresh order, paidAmount always equals the exact running sum of
completed payment amounts minus refunded amounts (so the refund floor at 0
never actually engages and paidAmount stays non-negative), and the order
status operations — updateOrderStatus, cancelOrder, assignReviewer — never
change paidAmount; paidAmount may however exceed totalAmount, since no
operation compares payment amounts with the order total. -/
theorem paidAmount_accounting :
    (∀ (st : St) (now : Time) (stat : OrderStatus),
      (updateOrderStatus now stat st).2.order.paidAmount = st.order.paidAmount) ∧
    (∀ (st : St) (now : Time),
      (cancelOrder now st).2.order.paidAmount = st.order.paidAmount) ∧
    (∀ (st : St) (now : Time) (u : Option User) (rid : Nat),
      (assignReviewer now u rid st).2.order.paidAmount = st.order.paidAmount) ∧
    (∀ (cid : Nat) (total : Int) (tr : List (Time × Op)),
      (replay (initSt cid total) tr).order.paidAmount
        = ledgerSum (initSt cid total) tr ∧
      0 ≤ (replay (initSt cid total) tr).order.paidAmount) := by
  refine ⟨fun st now stat => updateOrderStatus_paid now stat st,
          fun st now => cancelOrder_paid now st,
          fun st now u rid => assignReviewer_paid now u rid st,
          fun cid total tr => ?_⟩
  have hinv0 : LedgerInv (initSt cid total) := by
    constructor
    · intro p hp
      simp [initSt] at hp
    · show completedSum [] ≤ (0:Int)
      rw [completedSum_nil]
  obtain ⟨⟨hpos, hsum⟩, hpaid⟩ := replay_paid tr (initSt cid total) hinv0
  constructor
  · rw [hpaid]
    show (0:Int) + _ = _
    ring
  · have h0 := completedSum_nonneg (replay (initSt cid total) tr).payments hpos
    omega

/-- Witness for C4 on a concrete two-step trace: create a payment of 400
and complete it; the stored paidAmount coincides with the ledger sum. -/
theorem paidAmount_accounting_witness :
    (replay (initSt 1 350)
      [(0, Op.createPay 400), (1, Op.completePay 0 none)]).order.paidAmount
      = ledgerSum (initSt 1 350) [(0, Op.createPay 400), (1, Op.completePay 0 none)] ∧
    (updateOrderStatus 2 OrderStatus.CANCELLED
      (replay (initSt 1 350)
        [(0, Op.createPay 400), (1, Op.completePay 0 none)])).2.order.paidAmount
      = (replay (initSt 1 350)
          [(0, Op.createPay 400), (1, Op.completePay 0 none)]).order.paidAmount :=
  ⟨(paidAmount_accounting.2.2.2 1 350
      [(0, Op.createPay 400), (1, Op.completePay 0 none)]).1,
   paidAmount_accounting.1
     (replay (initSt 1 350) [(0, Op.createPay 400), (1, Op.completePay 0 none)])
     2 OrderStatus.CANCELLED⟩

/-- Witness for C9 on a concrete SCHEDULED consultation started at time 5. -/
theorem consultationStep_charact_witness :
    (⟨100, 60, ConsultationStatus.SCHEDULED, none, ⟨false, false, false⟩,
      [], none, none⟩ : Consultation).status = ConsultationStatus.SCHEDULED ∧
    (applyCOp 5
      ⟨100, 60, ConsultationStatus.SCHEDULED, none, ⟨false, false, false⟩, [], none, none⟩
      COp.start).2.status = ConsultationStatus.IN_PROGRESS :=
  (consultationStep_charact 5
    ⟨100, 60, ConsultationStatus.SCHEDULED, none, ⟨false, false, false⟩, [], none, none⟩
    COp.start).2 (by decide)

end Med
